import Mathlib

/-!
Verification of the chatroom server core (src/main.py): message store and
history pagination (`chat_history`), presence registry (the global `users`
set), presence rendering (`connected_users`), broadcast fan-out with
eviction (`update_chat`, `update_users`), and the connection lifecycle
handlers (`on_connect`, `on_disconnect`).

Modelling conventions:
- A `Message` row of the sqlite table is a record with a `Nat` id
  (autoincrement primary key), user, content, and an abstract `Nat`
  timestamp.
- The table contents are a `List Message`; the SQL
  `select * from message [where id < ?] order by id desc limit ?`
  is filtering, sorting by id descending, and taking the limit.
- A websocket channel (`send` callable) is a `Nat`; the global `users`
  set is a `Finset Nat`.  Whether a given channel's send raises is an
  arbitrary boolean function `fails`.
- `await`/`asyncio.create_task` effects are modelled as explicit result
  records and action traces under a frozen interleaving (no concurrent
  mutation during one pass).
-/

namespace Chatroom

/-- One row of the `message` table (`@dataclass class Message`). -/
structure Message where
  id : Nat
  user : String
  content : String
  timestamp : Nat
  deriving DecidableEq, Repr

/-- The `order by id desc` comparison: `a` comes no later than `b`
when `b.id ≤ a.id`. -/
def msgDesc (a b : Message) : Prop := b.id ≤ a.id

instance : DecidableRel msgDesc := fun a b => Nat.decLe b.id a.id

instance : IsTotal Message msgDesc := ⟨fun a b => Nat.le_total b.id a.id⟩

instance : IsTrans Message msgDesc := ⟨fun _ _ _ h1 h2 => Nat.le_trans h2 h1⟩

/-- `MESSAGE_BATCH_SIZE = 30` from the source. -/
def MESSAGE_BATCH_SIZE : Nat := 30

/-- The `where id < ?` clause: with `last_id = None` no row is excluded,
with `last_id = c` only rows with `id < c` are kept. -/
def filterBefore (store : List Message) : Option Nat → List Message
  | none => store
  | some c => store.filter (fun m => m.id < c)

/-- The query `select * from message [where id < last_id] order by id desc
limit lim` over table contents `store`. -/
def rangeBefore (store : List Message) (lastId : Option Nat) (lim : Nat) :
    List Message :=
  (List.insertionSort msgDesc (filterBefore store lastId)).take lim

/-- `chat_history(last_id)`: runs the query with limit `MESSAGE_BATCH_SIZE`;
returns `None` when the page is empty (the walrus `if msgs :=` fails),
otherwise the page together with the `last_id` embedded in the
loading-indicator element, which is `msgs[-1].id`. -/
def chat_history (store : List Message) (lastId : Option Nat) :
    Option (List Message × Nat) :=
  let msgs := rangeBefore store lastId MESSAGE_BATCH_SIZE
  match msgs.getLast? with
  | none => none
  | some m => some (msgs, m.id)

/-- `connected_users()`: the text of the presence `Div`,
`f"{count} user{'s' if count > 1 else ''} connected"`. -/
def connected_users (count : Nat) : String :=
  toString count ++ " user" ++ (if count > 1 then "s" else "") ++ " connected"

/-- Autoincrement id assignment of `messages.insert`: one more than the
largest id ever used (ids only grow, rows are never deleted). -/
def next_id (store : List Message) : Nat :=
  (store.map Message.id).foldr max 0 + 1

/-- The `chat` websocket handler body: builds a `Message` from the inbound
text, the cookie user and the current time, inserts it (id assigned by the
store) and returns the new table contents.  No validation is performed. -/
def chat (store : List Message) (user : String) (text : String) (now : Nat) :
    List Message :=
  store ++ [{ id := next_id store, user := user, content := text,
              timestamp := now }]

/-- Result of one `update_chat(message)` fan-out pass. -/
structure FanoutResult where
  delivered : Finset Nat
  discarded : Finset Nat
  registry : Finset Nat
  presenceSpawns : List String
  deriving DecidableEq

/-- `update_chat(message)`: attempts a send to every channel in `users`;
a raising send lands in `to_discard`, a non-raising one receives the
payload.  After the loop, if `to_discard` is non-empty, it is removed
from `users` in one `difference_update` and one `update_users()` task is
spawned (its payload renders the post-removal count). -/
def update_chat (users : Finset Nat) (fails : Nat → Bool) : FanoutResult :=
  let toDiscard := users.filter (fun c => fails c = true)
  if toDiscard.Nonempty then
    { delivered := users.filter (fun c => fails c = false)
      discarded := toDiscard
      registry := users \ toDiscard
      presenceSpawns := [connected_users (users \ toDiscard).card] }
  else
    { delivered := users.filter (fun c => fails c = false)
      discarded := toDiscard
      registry := users
      presenceSpawns := [] }

/-- `update_users()` chains: one pass evicts the channels failing on this
pass and, when that set is non-empty, recursively spawns another pass on
the shrunken registry.  `fails p c` says whether channel `c` raises on
pass `p`.  The result counts the total number of presence broadcast
passes executed. -/
def update_users_chain (fails : Nat → Nat → Bool) (pass : Nat)
    (users : Finset Nat) : Nat :=
  if h : (users.filter (fun c => fails pass c = true)).Nonempty then
    1 + update_users_chain fails (pass + 1)
      (users \ users.filter (fun c => fails pass c = true))
  else 1
  termination_by users.card
  decreasing_by
    obtain ⟨x, hx⟩ := h
    exact Finset.card_lt_card
      ⟨Finset.sdiff_subset,
       fun hsub => (Finset.mem_sdiff.mp
         (hsub (Finset.mem_of_mem_filter x hx))).2 hx⟩

/-- `users.add(send)` on the registry set. -/
def usersAdd (users : Finset Nat) (ch : Nat) : Finset Nat := insert ch users

/-- `users.discard(send)` on the registry set: deletes if present, no
error if absent. -/
def usersDiscard (users : Finset Nat) (ch : Nat) : Finset Nat :=
  users.erase ch

/-- `users.difference_update(batch)` on the registry set: the batch
eviction performed by the broadcast engine. -/
def usersDifferenceUpdate (users batch : Finset Nat) : Finset Nat :=
  users \ batch

/-- Observable effects of the lifecycle handlers. -/
inductive Action where
  | addChannel (ch : Nat)
  | removeChannel (ch : Nat)
  | sendHistory (ch : Nat) (cursor : Option Nat)
  | spawnPresence
  deriving DecidableEq, Repr

/-- `on_connect(send)`: `users.add(send)`, then
`await send(chat_history())` (cursor absent, on that channel only), then
`asyncio.create_task(update_users())`. -/
def on_connect (ch : Nat) : List Action :=
  [Action.addChannel ch, Action.sendHistory ch none, Action.spawnPresence]

/-- `on_disconnect(send)`: `users.discard(send)`, then
`asyncio.create_task(update_users())`. -/
def on_disconnect (ch : Nat) : List Action :=
  [Action.removeChannel ch, Action.spawnPresence]

/-- Effect of one action on the registry (`set.add` / `set.discard`). -/
def applyAction (users : Finset Nat) : Action → Finset Nat
  | Action.addChannel ch => insert ch users
  | Action.removeChannel ch => users.erase ch
  | _ => users

/-- Registry after running a trace of actions. -/
def runActions (users : Finset Nat) (l : List Action) : Finset Nat :=
  l.foldl applyAction users

/-! Helper lemmas about the history query. -/

theorem rangeBefore_length_le (store : List Message) (lastId : Option Nat)
    (lim : Nat) : (rangeBefore store lastId lim).length ≤ lim := by
  simp only [rangeBefore, List.length_take]
  exact Nat.min_le_left _ _

theorem mem_store_of_mem_rangeBefore {store : List Message}
    {lastId : Option Nat} {lim : Nat} {m : Message}
    (hm : m ∈ rangeBefore store lastId lim) : m ∈ store := by
  have h1 : m ∈ List.insertionSort msgDesc (filterBefore store lastId) :=
    List.mem_of_mem_take hm
  have h2 : m ∈ filterBefore store lastId :=
    (List.perm_insertionSort msgDesc _).mem_iff.mp h1
  cases lastId with
  | none => exact h2
  | some c => exact (List.mem_filter.mp h2).1

theorem id_lt_of_mem_rangeBefore {store : List Message} {c lim : Nat}
    {m : Message} (hm : m ∈ rangeBefore store (some c) lim) : m.id < c := by
  have h1 : m ∈ List.insertionSort msgDesc (filterBefore store (some c)) :=
    List.mem_of_mem_take hm
  have h2 : m ∈ filterBefore store (some c) :=
    (List.perm_insertionSort msgDesc _).mem_iff.mp h1
  exact of_decide_eq_true (List.mem_filter.mp h2).2

theorem rangeBefore_pairwise (store : List Message) (lastId : Option Nat)
    (lim : Nat) : (rangeBefore store lastId lim).Pairwise msgDesc :=
  List.Pairwise.sublist (List.take_sublist lim _)
    (List.sorted_insertionSort msgDesc (filterBefore store lastId))

theorem pairwise_getLast_le :
    ∀ {l : List Message}, l.Pairwise msgDesc → ∀ {b : Message},
      l.getLast? = some b → ∀ a ∈ l, b.id ≤ a.id := by
  intro l
  induction l with
  | nil => intro _ b hb; cases hb
  | cons x xs ih =>
    intro hp b hb a ha
    cases xs with
    | nil =>
      simp only [List.getLast?_singleton, Option.some.injEq] at hb
      rcases List.mem_singleton.mp ha with rfl
      subst hb; exact Nat.le_refl _
    | cons y ys =>
      rw [List.getLast?_cons_cons] at hb
      rcases List.pairwise_cons.mp hp with ⟨hx, hrest⟩
      rcases List.mem_cons.mp ha with rfl | ha
      · exact hx b (List.mem_of_getLast?_eq_some hb)
      · exact ih hrest hb a ha

theorem chat_history_eq_some {store : List Message} {lastId : Option Nat}
    {msgs : List Message} {cur : Nat}
    (h : chat_history store lastId = some (msgs, cur)) :
    msgs = rangeBefore store lastId MESSAGE_BATCH_SIZE ∧
    ∃ m : Message, msgs.getLast? = some m ∧ cur = m.id := by
  simp only [chat_history] at h
  cases hl : (rangeBefore store lastId MESSAGE_BATCH_SIZE).getLast? with
  | none => rw [hl] at h; simp at h
  | some m =>
    rw [hl] at h
    simp only [Option.some.injEq, Prod.mk.injEq] at h
    obtain ⟨rfl, rfl⟩ := h
    exact ⟨rfl, m, hl, rfl⟩

theorem cur_le_of_chat_history {store : List Message} {lastId : Option Nat}
    {msgs : List Message} {cur : Nat}
    (h : chat_history store lastId = some (msgs, cur)) :
    ∀ m ∈ msgs, cur ≤ m.id := by
  obtain ⟨hmsgs, m, hlast, hcur⟩ := chat_history_eq_some h
  subst hcur
  exact pairwise_getLast_le (hmsgs ▸ rangeBefore_pairwise store lastId _) hlast

/-! Claim theorems. -/

/-- C2 counterexample: at registry count 0 the presence text rendered by
`connected_users` is "0 user connected" (the plural `s` is added only when
`count > 1`), not "0 users connected" as the claim states for every
count different from 1. -/
theorem connected_users_zero_counterexample :
    connected_users 0 = "0 user connected" ∧
    connected_users 0 ≠ "0 users connected" := by
  constructor
  · rfl
  · decide

/-- C2 (amended): the presence payload is "1 user connected" for count 1
and "N users connected" for every count N > 1, but for count 0 the code
renders "0 user connected" without the plural `s` (the suffix is chosen by
`count > 1`, not `count ≠ 1`). -/
theorem connected_users_pluralization :
    connected_users 0 = "0 user connected" ∧
    connected_users 1 = "1 user connected" ∧
    ∀ n : Nat, 1 < n → connected_users n = toString n ++ " users connected" := by
  refine ⟨rfl, rfl, fun n hn => ?_⟩
  unfold connected_users
  rw [if_pos hn]
  apply String.ext
  simp only [String.data_append, List.append_assoc]
  exact congrArg _ (by decide)

/-- C2 witness: instantiation of the amended pluralization theorem at
count 2. -/
theorem connected_users_pluralization_witness :
    1 < 2 ∧ connected_users 2 = toString 2 ++ " users connected" :=
  ⟨by decide, connected_users_pluralization.2.2 2 (by decide)⟩

/-- C6: `on_connect` first adds the channel to the registry, then sends the
most-recent history page (cursor absent) directly on that channel only,
then spawns one presence broadcast; `on_disconnect` removes the channel
and then spawns one presence broadcast; running the traces on any registry
yields `insert` resp. `erase`. -/
theorem lifecycle_handlers_spec (users : Finset Nat) (ch : Nat) :
    on_connect ch = [Action.addChannel ch, Action.sendHistory ch none,
      Action.spawnPresence] ∧
    runActions users (on_connect ch) = insert ch users ∧
    on_disconnect ch = [Action.removeChannel ch, Action.spawnPresence] ∧
    runActions users (on_disconnect ch) = users.erase ch := by
  refine ⟨rfl, ?_, rfl, ?_⟩ <;>
    simp [runActions, on_connect, on_disconnect, applyAction, List.foldl]

/-- C7: `users.add` is idempotent (re-adding a present channel changes
nothing), `users.discard` of an absent channel is a no-op, and a
disconnect removal (`discard`) combined with a failure eviction
(`difference_update` with the singleton batch) of the same present
channel, in either order, leaves the registry with exactly one fewer
member than before the first removal. -/
theorem registry_add_remove_idempotent (users : Finset Nat) (ch chA : Nat)
    (hmem : ch ∈ users) (habs : chA ∉ users) :
    usersAdd (usersAdd users ch) ch = usersAdd users ch ∧
    usersAdd users ch = users ∧
    usersDiscard users chA = users ∧
    usersDifferenceUpdate (usersDiscard users ch) {ch}
      = usersDifferenceUpdate users {ch} ∧
    usersDiscard (usersDifferenceUpdate users {ch}) ch
      = usersDifferenceUpdate users {ch} ∧
    (usersDifferenceUpdate (usersDiscard users ch) {ch}).card + 1
      = users.card ∧
    (usersDiscard (usersDifferenceUpdate users {ch}) ch).card + 1
      = users.card := by
  simp only [usersAdd, usersDiscard, usersDifferenceUpdate,
    Finset.sdiff_singleton_eq_erase]
  refine ⟨Finset.insert_idem ch users, Finset.insert_eq_self.mpr hmem,
    Finset.erase_eq_of_not_mem habs, Finset.erase_idem, Finset.erase_idem,
    ?_, ?_⟩ <;>
  · rw [Finset.erase_idem]
    exact Finset.card_erase_add_one hmem

/-- C7 witness: instantiation on the registry `{0, 1}` with present
channel 0 and absent channel 5. -/
theorem registry_add_remove_idempotent_witness :
    (0 ∈ ({0, 1} : Finset Nat) ∧ 5 ∉ ({0, 1} : Finset Nat)) ∧
    (usersDifferenceUpdate (usersDiscard ({0, 1} : Finset Nat) 0)
      {0}).card + 1 = ({0, 1} : Finset Nat).card :=
  ⟨⟨by decide, by decide⟩,
   (registry_add_remove_idempotent {0, 1} 0 5 (by decide)
     (by decide)).2.2.2.2.2.1⟩

/-- C9: the `chat` handler performs no content validation: for every
inbound text, the empty string included, it appends exactly one message
whose content is the inbound text verbatim, with the sender's identity and
the current timestamp, leaving the existing rows untouched. -/
theorem chat_stores_content_verbatim (store : List Message)
    (user text : String) (now : Nat) :
    (chat store user text now).length = store.length + 1 ∧
    (chat store user text now).take store.length = store ∧
    ∃ m : Message, (chat store user text now).getLast? = some m ∧
      m.content = text ∧ m.user = user ∧ m.timestamp = now := by
  refine ⟨by simp [chat], ?_, ?_⟩
  · rw [chat, List.take_left' rfl]
  · exact ⟨_, List.getLast?_concat store, rfl, rfl, rfl⟩

/-- C1: in one `update_chat` fan-out pass over registry `users` with
per-channel failure behaviour `fails`, every channel whose send does not
raise receives the message and only those do; exactly the failing
channels are removed from the registry in one batch after the pass
(leaving `K - i` members); and exactly one presence broadcast is spawned
if and only if the batch of failed channels is non-empty, its payload
rendering the post-removal count. -/
theorem update_chat_fanout_spec (users : Finset Nat) (fails : Nat → Bool) :
    (∀ c ∈ users, fails c = false → c ∈ (update_chat users fails).delivered) ∧
    (∀ c ∈ (update_chat users fails).delivered,
      c ∈ users ∧ fails c = false) ∧
    (update_chat users fails).discarded
      = users.filter (fun c => fails c = true) ∧
    (update_chat users fails).registry
      = users \ users.filter (fun c => fails c = true) ∧
    (update_chat users fails).registry.card
      = users.card - (users.filter (fun c => fails c = true)).card ∧
    ((update_chat users fails).presenceSpawns.length = 1 ↔
      (users.filter (fun c => fails c = true)).Nonempty) ∧
    (∀ p ∈ (update_chat users fails).presenceSpawns,
      p = connected_users (update_chat users fails).registry.card) := by
  have hdel : (update_chat users fails).delivered
      = users.filter (fun c => fails c = false) := by
    by_cases h : (users.filter (fun c => fails c = true)).Nonempty <;>
      simp [update_chat, h]
  have hdis : (update_chat users fails).discarded
      = users.filter (fun c => fails c = true) := by
    by_cases h : (users.filter (fun c => fails c = true)).Nonempty <;>
      simp [update_chat, h]
  have hreg : (update_chat users fails).registry
      = users \ users.filter (fun c => fails c = true) := by
    by_cases h : (users.filter (fun c => fails c = true)).Nonempty
    · simp [update_chat, h]
    · simp [update_chat, h, Finset.not_nonempty_iff_eq_empty.mp h]
  have hspawn : (update_chat users fails).presenceSpawns
      = if (users.filter (fun c => fails c = true)).Nonempty
        then [connected_users
          ((users \ users.filter (fun c => fails c = true))).card]
        else [] := by
    by_cases h : (users.filter (fun c => fails c = true)).Nonempty <;>
      simp [update_chat, h]
  refine ⟨?_, ?_, hdis, hreg, ?_, ?_, ?_⟩
  · intro c hc hf
    rw [hdel]
    exact Finset.mem_filter.mpr ⟨hc, hf⟩
  · intro c hc
    rw [hdel] at hc
    exact Finset.mem_filter.mp hc
  · rw [hreg]
    exact Finset.card_sdiff (Finset.filter_subset _ _)
  · rw [hspawn]
    by_cases h : (users.filter (fun c => fails c = true)).Nonempty <;>
      simp [h]
  · intro p hp
    rw [hspawn] at hp
    rw [hreg]
    by_cases h : (users.filter (fun c => fails c = true)).Nonempty
    · rw [if_pos h] at hp
      simpa using hp
    · rw [if_neg h] at hp
      cases hp

/-- C1 witness: fan-out over registry `{0, 1, 2}` where only channel 2
fails; channel 0 succeeds and is delivered to. -/
theorem update_chat_fanout_spec_witness :
    (0 ∈ ({0, 1, 2} : Finset Nat) ∧ (fun c => decide (c = 2)) 0 = false) ∧
    0 ∈ (update_chat {0, 1, 2} (fun c => decide (c = 2))).delivered :=
  ⟨⟨by decide, by decide⟩,
   (update_chat_fanout_spec {0, 1, 2} (fun c => decide (c = 2))).1 0
     (by decide) (by decide)⟩

/-- Helper for C10: the chain length is bounded by the registry size plus
one, by strong induction on the card bound. -/
theorem update_users_chain_le (fails : Nat → Nat → Bool) :
    ∀ n : Nat, ∀ users : Finset Nat, users.card ≤ n → ∀ pass : Nat,
      update_users_chain fails pass users ≤ users.card + 1 := by
  intro n
  induction n with
  | zero =>
    intro users hcard pass
    have hempty : users = ∅ := Finset.card_eq_zero.mp (Nat.le_zero.mp hcard)
    subst hempty
    rw [update_users_chain]
    simp
  | succ n ih =>
    intro users hcard pass
    rw [update_users_chain]
    split
    next h =>
      have hlt : (users \ users.filter
          (fun c => fails pass c = true)).card < users.card := by
        obtain ⟨x, hx⟩ := h
        exact Finset.card_lt_card
          ⟨Finset.sdiff_subset,
           fun hsub => (Finset.mem_sdiff.mp
             (hsub (Finset.mem_of_mem_filter x hx))).2 hx⟩
      have hrec := ih _ (Nat.le_of_lt_succ (Nat.lt_of_lt_of_le hlt hcard))
        (pass + 1)
      omega
    next h => omega

/-- C10: every chain of recursive presence re-broadcasts terminates: a
pass re-spawns itself only when a non-empty batch was evicted, the
registry strictly shrinks on each such pass, and the total number of
chained presence broadcast passes is at most the initial member count
plus one, for any per-pass failure behaviour. -/
theorem presence_rebroadcast_chain_bounded (fails : Nat → Nat → Bool)
    (pass : Nat) (users : Finset Nat) :
    update_users_chain fails pass users ≤ users.card + 1 :=
  update_users_chain_le fails users.card users (Nat.le_refl _) pass

/-- C3: every history page has at most `MESSAGE_BATCH_SIZE = 30` messages,
all drawn from the store; every returned message has id strictly below
the cursor when a cursor is given (unbounded above when absent); and the
page is ordered by id descending. -/
theorem history_page_spec (store : List Message) (lastId : Option Nat) :
    MESSAGE_BATCH_SIZE = 30 ∧
    (rangeBefore store lastId MESSAGE_BATCH_SIZE).length
      ≤ MESSAGE_BATCH_SIZE ∧
    (∀ m ∈ rangeBefore store lastId MESSAGE_BATCH_SIZE, m ∈ store) ∧
    (∀ c, lastId = some c →
      ∀ m ∈ rangeBefore store lastId MESSAGE_BATCH_SIZE, m.id < c) ∧
    (rangeBefore store lastId MESSAGE_BATCH_SIZE).Pairwise msgDesc := by
  refine ⟨rfl, rangeBefore_length_le store lastId _, ?_, ?_,
    rangeBefore_pairwise store lastId _⟩
  · intro m hm; exact mem_store_of_mem_rangeBefore hm
  · intro c hc m hm
    subst hc
    exact id_lt_of_mem_rangeBefore hm

/-- C3 witness: a two-message store queried at cursor 2; the page contains
the message with id 1 and its id is below the cursor. -/
theorem history_page_spec_witness :
    ((some 2 : Option Nat) = some 2 ∧
      Message.mk 1 "a" "x" 0 ∈ rangeBefore
        [Message.mk 1 "a" "x" 0, Message.mk 2 "b" "y" 0] (some 2)
        MESSAGE_BATCH_SIZE) ∧
    (Message.mk 1 "a" "x" 0).id < 2 :=
  ⟨⟨rfl, by decide⟩,
   (history_page_spec [Message.mk 1 "a" "x" 0, Message.mk 2 "b" "y" 0]
     (some 2)).2.2.2.1 2 rfl (Message.mk 1 "a" "x" 0) (by decide)⟩

/-- C4: `chat_history` yields no next cursor exactly when the page is
empty; when a page is returned, the next cursor is the id of one of its
messages and is a lower bound of the page's ids (the oldest message
returned); and a cursor that lower-bounds every stored id (the smallest
id ever inserted) yields an empty page with no next cursor. -/
theorem next_cursor_spec (store : List Message) (lastId : Option Nat) :
    (chat_history store lastId = none ↔
      rangeBefore store lastId MESSAGE_BATCH_SIZE = []) ∧
    (∀ msgs cur, chat_history store lastId = some (msgs, cur) →
      cur ∈ msgs.map Message.id ∧ ∀ m ∈ msgs, cur ≤ m.id) ∧
    (∀ c, (∀ m ∈ store, c ≤ m.id) → chat_history store (some c) = none) := by
  refine ⟨?_, ?_, ?_⟩
  · cases hl : (rangeBefore store lastId MESSAGE_BATCH_SIZE).getLast? with
    | none =>
      exact iff_of_true (by simp [chat_history, hl])
        (List.getLast?_eq_none_iff.mp hl)
    | some m =>
      apply iff_of_false
      · simp [chat_history, hl]
      · intro hnil
        rw [hnil] at hl
        cases hl
  · intro msgs cur h
    obtain ⟨hmsgs, m, hlast, hcur⟩ := chat_history_eq_some h
    subst hcur
    exact ⟨List.mem_map.mpr ⟨m, List.mem_of_getLast?_eq_some hlast, rfl⟩,
      cur_le_of_chat_history h⟩
  · intro c hc
    have hfilter : filterBefore store (some c) = [] := by
      simp only [filterBefore]
      rw [List.filter_eq_nil_iff]
      intro m hm
      simp only [decide_eq_true_eq]
      exact Nat.not_lt.mpr (hc m hm)
    have hrange : rangeBefore store (some c) MESSAGE_BATCH_SIZE = [] := by
      simp [rangeBefore, hfilter, List.insertionSort]
    simp [chat_history, hrange]

/-- C4 witness: in the two-message store, querying at the smallest id ever
inserted (1) yields an empty page with no next cursor. -/
theorem next_cursor_spec_witness :
    (∀ m ∈ [Message.mk 1 "a" "x" 0, Message.mk 2 "b" "y" 0], 1 ≤ m.id) ∧
    chat_history [Message.mk 1 "a" "x" 0, Message.mk 2 "b" "y" 0] (some 1)
      = none :=
  ⟨by decide,
   (next_cursor_spec [Message.mk 1 "a" "x" 0, Message.mk 2 "b" "y" 0]
     none).2.2 1 (by decide)⟩

/-- C5: with the store frozen, after the most-recent page (cursor absent)
returns `msgs1` with next cursor `cur`, the page at cursor `cur` holds at
most 30 strictly older messages, shares no message with the first page,
and omits no stored message lying between the two pages: any stored
message older than `cur` missing from the second page is strictly older
than everything in it. -/
theorem pagination_no_overlap_no_gap (store : List Message)
    (hids : (store.map Message.id).Nodup)
    (msgs1 : List Message) (cur : Nat)
    (h1 : chat_history store none = some (msgs1, cur)) :
    (∀ m ∈ rangeBefore store (some cur) MESSAGE_BATCH_SIZE, m.id < cur) ∧
    (rangeBefore store (some cur) MESSAGE_BATCH_SIZE).length
      ≤ MESSAGE_BATCH_SIZE ∧
    (∀ m ∈ msgs1, m ∉ rangeBefore store (some cur) MESSAGE_BATCH_SIZE) ∧
    (∀ m ∈ store, m.id < cur →
      m ∉ rangeBefore store (some cur) MESSAGE_BATCH_SIZE →
      ∀ mq ∈ rangeBefore store (some cur) MESSAGE_BATCH_SIZE,
        m.id < mq.id) := by
  refine ⟨fun m hm => id_lt_of_mem_rangeBefore hm,
    rangeBefore_length_le store (some cur) _, ?_, ?_⟩
  · intro m hm1 hm2
    exact absurd (id_lt_of_mem_rangeBefore hm2)
      (Nat.not_lt.mpr (cur_le_of_chat_history h1 m hm1))
  · intro m hmstore hmlt hmnot mq hmq
    have hrangeS : rangeBefore store (some cur) MESSAGE_BATCH_SIZE
        = (List.insertionSort msgDesc
            (filterBefore store (some cur))).take MESSAGE_BATCH_SIZE := rfl
    have hmfS : m ∈ List.insertionSort msgDesc (filterBefore store (some cur)) := by
      apply (List.perm_insertionSort msgDesc _).mem_iff.mpr
      simp only [filterBefore, List.mem_filter]
      exact ⟨hmstore, by simpa using hmlt⟩
    have hsplit : (List.insertionSort msgDesc
          (filterBefore store (some cur))).take MESSAGE_BATCH_SIZE
        ++ (List.insertionSort msgDesc
          (filterBefore store (some cur))).drop MESSAGE_BATCH_SIZE
        = List.insertionSort msgDesc (filterBefore store (some cur)) :=
      List.take_append_drop _ _
    have hmdrop : m ∈ (List.insertionSort msgDesc
        (filterBefore store (some cur))).drop MESSAGE_BATCH_SIZE := by
      rw [← hsplit] at hmfS
      rcases List.mem_append.mp hmfS with hmem | hmem
      · exact absurd (hrangeS ▸ hmem) hmnot
      · exact hmem
    have hpairS : (List.insertionSort msgDesc
        (filterBefore store (some cur))).Pairwise msgDesc :=
      List.sorted_insertionSort msgDesc _
    rw [← hsplit] at hpairS
    have hrel : msgDesc mq m :=
      (List.pairwise_append.mp hpairS).2.2 mq (hrangeS ▸ hmq) m hmdrop
    have hne : m ≠ mq := fun he => hmnot (he ▸ hmq)
    have hmqstore : mq ∈ store := mem_store_of_mem_rangeBefore hmq
    have hid_ne : m.id ≠ mq.id := fun he =>
      hne (List.inj_on_of_nodup_map hids hmstore hmqstore he)
    exact Nat.lt_of_le_of_ne hrel hid_ne

/-- C5 witness: in the two-message store the first page is
`[id 2, id 1]` with next cursor 1, and the message with id 2 (a member of
the first page) does not reappear in the page at cursor 1. -/
theorem pagination_no_overlap_no_gap_witness :
    (([Message.mk 1 "a" "x" 0, Message.mk 2 "b" "y" 0].map
        Message.id).Nodup ∧
      chat_history [Message.mk 1 "a" "x" 0, Message.mk 2 "b" "y" 0] none
        = some ([Message.mk 2 "b" "y" 0, Message.mk 1 "a" "x" 0], 1) ∧
      Message.mk 2 "b" "y" 0
        ∈ [Message.mk 2 "b" "y" 0, Message.mk 1 "a" "x" 0]) ∧
    Message.mk 2 "b" "y" 0
      ∉ rangeBefore [Message.mk 1 "a" "x" 0, Message.mk 2 "b" "y" 0]
          (some 1) MESSAGE_BATCH_SIZE :=
  ⟨⟨by decide, by decide, by decide⟩,
   (pagination_no_overlap_no_gap
     [Message.mk 1 "a" "x" 0, Message.mk 2 "b" "y" 0] (by decide)
     [Message.mk 2 "b" "y" 0, Message.mk 1 "a" "x" 0] 1
     (by decide)).2.2.1 (Message.mk 2 "b" "y" 0) (by decide)⟩

end Chatroom
